import Mathlib

/-!
Shallow embedding of `pfrl/replay_buffers/hindsight.py` (personalkits/pfrl),
the Hindsight Experience Replay (HER) buffer, together with proofs about the
claims of its specification.

Conventions of the embedding:
* Python `dict`s of named sub-observations are association lists
  `List (String × V)` where the most recent binding of a key shadows older
  ones; `dictGet` looks a key up, `dictSet` binds it (Python assignment).
* Fallible Python operations return `Except PyErr α`; Python runtime errors
  (NameError, AttributeError, KeyError, ValueError, AssertionError, ...) are
  the constructors of `PyErr`.
* Randomness is injected: every random draw made by the source
  (`np.random.randint`, `np.random.uniform`) appears as an explicit argument
  of the embedded function, and theorems constrain those arguments to the
  support of the corresponding distribution.
* Rewards and probabilities are modelled as `ℚ`; sub-observation values are a
  type parameter `V`.
-/

/-- Python runtime errors raised by the embedded code. -/
inductive PyErr where
  | nameError (ident : String)
  | attributeError (attr : String)
  | typeError (msg : String)
  | keyError (key : String)
  | valueError (msg : String)
  | indexError
  | assertionError
  | notImplError
  deriving DecidableEq, Repr

/-- A Python `dict` mapping sub-observation names to values, as an association
list where the most recent binding of a key shadows older ones. -/
abbrev Dict (V : Type) := List (String × V)

/-- Dictionary lookup `d.get(k)`: the value of the most recent binding. -/
def dictGet {V : Type} (d : Dict V) (k : String) : Option V :=
  (d.find? (fun p => p.1 == k)).map (fun p => p.2)

/-- Dictionary assignment `d[k] = v`: adds a binding that shadows older ones. -/
def dictSet {V : Type} (d : Dict V) (k : String) (v : V) : Dict V :=
  (k, v) :: d

/-- Checked dictionary lookup `d[k]`: raises KeyError when the key is absent. -/
def dictGetE {V : Type} (d : Dict V) (k : String) : Except PyErr V :=
  match dictGet d k with
  | some v => .ok v
  | none => .error (.keyError k)

/-- One environment step, as stored by the buffer: state, action, reward,
next state and terminal flag, the states being dicts of sub-observations
(including "achieved_goal" and "desired_goal" when HER is active). -/
structure Transition (V : Type) where
  state : Dict V
  action : V
  reward : ℚ
  next_state : Dict V
  is_state_terminal : Bool
  deriving DecidableEq, Repr

/-- An episode: the ordered transitions of one rollout. -/
abbrev Episode (V : Type) := List (Transition V)

/-- Python list indexing `xs[i]` for a nonnegative index: IndexError when out
of range. -/
def pyIndex {α : Type} (xs : List α) (i : ℕ) : Except PyErr α :=
  match xs[i]? with
  | some x => .ok x
  | none => .error .indexError

/-- Python `xs[-1]`: the last element, IndexError on an empty list. -/
def pyLast {α : Type} (xs : List α) : Except PyErr α :=
  match xs.getLast? with
  | some x => .ok x
  | none => .error .indexError

/-- The key-swap loop of `relabel_transition_goal` (source lines 12-15):
for every rule `(desired_obs_key, achieved_obs_key)` read
`goal_transition["next_state"][achieved_obs_key]` (KeyError when absent) and
write it into both `transition["state"][desired_obs_key]` and
`transition["next_state"][desired_obs_key]`. -/
def swapLoop {V : Type} (goal_transition : Transition V) :
    List (String × String) → Transition V → Except PyErr (Transition V)
  | [], t => .ok t
  | (desired_obs_key, achieved_obs_key) :: rest, t => do
      let replacement ← dictGetE goal_transition.next_state achieved_obs_key
      swapLoop goal_transition rest
        { t with
          state := dictSet t.state desired_obs_key replacement,
          next_state := dictSet t.next_state desired_obs_key replacement }

/-- Embeds `relabel_transition_goal` (source lines 9-19).  After the key-swap
loop it recomputes the reward as
`reward_fn(goal_transition["next_state"]["achieved_goal"],
transition["next_state"]["achieved_goal"])` and returns the relabeled
transition.  The source's first parameter `self` (the function is a
module-level function with a spurious, unused `self` parameter) is elided,
as the body never reads it. -/
def relabel_transition_goal {V : Type} (transition goal_transition : Transition V)
    (reward_fn : V → V → ℚ) (swap_keys_list : List (String × String)) :
    Except PyErr (Transition V) := do
  let t ← swapLoop goal_transition swap_keys_list transition
  let new_goal ← dictGetE goal_transition.next_state "achieved_goal"
  let achieved_goal ← dictGetE t.next_state "achieved_goal"
  .ok { t with reward := reward_fn new_goal achieved_goal }

theorem dictGet_set_self {V : Type} (d : Dict V) (k : String) (v : V) :
    dictGet (dictSet d k v) k = some v := by
  simp [dictGet, dictSet, List.find?]

theorem dictGet_set_ne {V : Type} (d : Dict V) (k k' : String) (v : V)
    (h : k' ≠ k) : dictGet (dictSet d k v) k' = dictGet d k' := by
  have hbe : (k == k') = false := by
    simp only [beq_eq_false_iff_ne, ne_eq]
    exact fun he => h he.symm
  simp [dictGet, dictSet, List.find?, hbe]

theorem except_bind_ok {ε α β : Type} (a : α) (f : α → Except ε β) :
    (Except.ok a : Except ε α) >>= f = f a := rfl

theorem swapLoop_spec {V : Type} (goal_transition : Transition V)
    (rules : List (String × String)) :
    ∀ t : Transition V,
    (rules.map Prod.fst).Nodup →
    (∀ p ∈ rules, (dictGet goal_transition.next_state p.2).isSome) →
    ∃ t', swapLoop goal_transition rules t = .ok t' ∧
      (∀ p ∈ rules,
        dictGet t'.state p.1 = dictGet goal_transition.next_state p.2 ∧
        dictGet t'.next_state p.1 = dictGet goal_transition.next_state p.2) ∧
      (∀ k, k ∉ rules.map Prod.fst →
        dictGet t'.state k = dictGet t.state k ∧
        dictGet t'.next_state k = dictGet t.next_state k) ∧
      t'.reward = t.reward ∧ t'.action = t.action ∧
      t'.is_state_terminal = t.is_state_terminal := by
  induction rules with
  | nil =>
      intro t _ _
      exact ⟨t, rfl, by simp, by simp, rfl, rfl, rfl⟩
  | cons hd rest ih =>
      intro t hnodup hkeys
      obtain ⟨d, a⟩ := hd
      have hrep : (dictGet goal_transition.next_state a).isSome :=
        hkeys (d, a) (List.mem_cons_self _ _)
      obtain ⟨v, hv⟩ := Option.isSome_iff_exists.mp hrep
      have hmap : (d :: rest.map Prod.fst).Nodup := by
        rw [List.map_cons] at hnodup
        exact hnodup
      have hnodup' : (rest.map Prod.fst).Nodup := (List.nodup_cons.mp hmap).2
      have hdnotin : d ∉ rest.map Prod.fst := (List.nodup_cons.mp hmap).1
      obtain ⟨t', hrun, hrules, hkeep, hrw, hac, hterm⟩ :=
        ih ({ t with
              state := dictSet t.state d v,
              next_state := dictSet t.next_state d v })
          hnodup' (fun p hp => hkeys p (List.mem_cons_of_mem _ hp))
      refine ⟨t', ?_, ?_, ?_, hrw, hac, hterm⟩
      · simp only [swapLoop, dictGetE, hv]
        exact hrun
      · intro p hp
        rcases List.mem_cons.mp hp with heq | hmem
        · subst heq
          have hk := hkeep d hdnotin
          constructor
          · rw [hk.1, dictGet_set_self, hv]
          · rw [hk.2, dictGet_set_self, hv]
        · exact hrules p hmem
      · intro k hk
        have hk1 : k ∉ rest.map Prod.fst := by
          intro hmem
          exact hk (by simp [hmem])
        have hkd : k ≠ d := by
          intro he
          exact hk (by simp [he])
        have := hkeep k hk1
        constructor
        · rw [this.1]
          exact dictGet_set_ne _ _ _ _ hkd
        · rw [this.2]
          exact dictGet_set_ne _ _ _ _ hkd

/-- C1 (amended): for every transition, goal transition, reward function and
list of key-swap rules whose referenced keys are present and whose desired
keys are pairwise distinct, `relabel_transition_goal` writes
`goal_transition.next_state[achieved_key]` into both
`transition.state[desired_key]` and `transition.next_state[desired_key]` for
every rule `(desired_key, achieved_key)`, then sets `transition.reward` to
`reward_fn(goal_transition.next_state["achieved_goal"],
transition.next_state["achieved_goal"])` (the post-swap next state) and
returns the relabeled transition; in particular, with the mandatory rule
`(desired_goal, achieved_goal)` among the rules, the returned transition has
`state["desired_goal"] = next_state["desired_goal"] =
goal_transition.next_state["achieved_goal"]`. -/
theorem relabel_transition_goal_spec {V : Type}
    (transition goal_transition : Transition V)
    (reward_fn : V → V → ℚ) (rules : List (String × String))
    (hnodup : (rules.map Prod.fst).Nodup)
    (hkeys : ∀ p ∈ rules, (dictGet goal_transition.next_state p.2).isSome)
    (hg : (dictGet goal_transition.next_state "achieved_goal").isSome)
    (ha : (dictGet transition.next_state "achieved_goal").isSome) :
    ∃ t' g a,
      relabel_transition_goal transition goal_transition reward_fn rules = .ok t' ∧
      dictGet goal_transition.next_state "achieved_goal" = some g ∧
      dictGet t'.next_state "achieved_goal" = some a ∧
      t'.reward = reward_fn g a ∧
      ∀ p ∈ rules,
        dictGet t'.state p.1 = dictGet goal_transition.next_state p.2 ∧
        dictGet t'.next_state p.1 = dictGet goal_transition.next_state p.2 := by
  obtain ⟨t', hrun, hrules, hkeep, _, _, _⟩ :=
    swapLoop_spec goal_transition rules transition hnodup hkeys
  obtain ⟨g, hgv⟩ := Option.isSome_iff_exists.mp hg
  have hasome : (dictGet t'.next_state "achieved_goal").isSome := by
    by_cases hmem : "achieved_goal" ∈ rules.map Prod.fst
    · obtain ⟨p, hp, hfst⟩ := List.mem_map.mp hmem
      rw [← hfst, (hrules p hp).2]
      exact hkeys p hp
    · rw [(hkeep _ hmem).2]
      exact ha
  obtain ⟨a, hav⟩ := Option.isSome_iff_exists.mp hasome
  refine ⟨{ t' with reward := reward_fn g a }, g, a, ?_, hgv, hav, rfl, ?_⟩
  · simp only [relabel_transition_goal, hrun, except_bind_ok, dictGetE, hgv, hav]
  · intro p hp
    exact hrules p hp

/-- Concrete data for the counterexample to C1 as stated.  The value type is
`ℤ` and the reward function returns the difference of the goals. -/
def fC1 : ℤ → ℤ → ℚ := fun g a => (g : ℚ) - (a : ℚ)

def trC1 : Transition ℤ :=
  { state := [("desired_goal", 0), ("achieved_goal", 1)]
    action := 0
    reward := 0
    next_state := [("desired_goal", 0), ("achieved_goal", 1)]
    is_state_terminal := false }

def gtC1 : Transition ℤ :=
  { state := [("desired_goal", 0), ("achieved_goal", 5), ("other_goal", 7)]
    action := 0
    reward := 0
    next_state := [("desired_goal", 0), ("achieved_goal", 5), ("other_goal", 7)]
    is_state_terminal := false }

/-- C1 (counterexample to the claim as stated): with the rule list
`[("desired_goal", "achieved_goal"), ("desired_goal", "other_goal")]`, whose
referenced keys are all present, the write of the first rule is overwritten
by the second (last write wins), so after relabeling
`transition.state["desired_goal"]` is the goal transition's `other_goal`
value 7, not its `achieved_goal` value 5 — the claimed postcondition for the
rule `(desired_goal, achieved_goal)` fails. -/
theorem relabel_dup_desired_counterexample :
    (relabel_transition_goal trC1 gtC1 fC1
        [("desired_goal", "achieved_goal"), ("desired_goal", "other_goal")]).toOption.map
      (fun t => dictGet t.state "desired_goal") = some (some 7) ∧
    dictGet gtC1.next_state "achieved_goal" = some 5 ∧ (7 : ℤ) ≠ 5 := by
  refine ⟨?_, ?_, by decide⟩ <;> rfl

/-- C1 witness: the amended theorem applied at a concrete input (the
mandatory single-rule list), with every hypothesis discharged there. -/
theorem relabel_transition_goal_spec_witness :
    ∃ t' g a,
      relabel_transition_goal trC1 gtC1 fC1 [("desired_goal", "achieved_goal")] = .ok t' ∧
      dictGet gtC1.next_state "achieved_goal" = some g ∧
      dictGet t'.next_state "achieved_goal" = some a ∧
      t'.reward = fC1 g a ∧
      ∀ p ∈ [("desired_goal", "achieved_goal")],
        dictGet t'.state p.1 = dictGet gtC1.next_state p.2 ∧
        dictGet t'.next_state p.1 = dictGet gtC1.next_state p.2 :=
  relabel_transition_goal_spec trC1 gtC1 fC1 [("desired_goal", "achieved_goal")]
    (by decide) (by decide) (by decide) (by decide)

/-- Base class `HindsightReplayStrategy` (source lines 22-30); its `apply`
returns the episodes unchanged. -/
structure HindsightReplayStrategy (V : Type) where
  reward_fn : V → V → ℚ

def HindsightReplayStrategy.apply {V : Type} (_s : HindsightReplayStrategy V)
    (episodes : List (Episode V)) : List (Episode V) := episodes

/-- Calling `self.is_null_goal(goal)`: calling `None` (the default) raises
TypeError, otherwise the stored predicate is evaluated. -/
def callPred {V : Type} (f : Option (V → Bool)) (goal : V) : Except PyErr Bool :=
  match f with
  | none => .error (.typeError "NoneType object is not callable")
  | some p => .ok (p goal)

/-- `ReplayFinalGoal` (source lines 32-62): fields set by its `__init__`. -/
structure ReplayFinalGoal (V : Type) where
  ignore_null_goals : Bool := true
  is_null_goal : Option (V → Bool) := none

/-- Loop body of `ReplayFinalGoal.apply` (source lines 51-61) for one episode,
with the random draws passed in explicitly: `t` is the draw of
`np.random.randint(len(episode))` and `apply_her` the draw of
`np.random.uniform() < 0.5`.  When relabeling is selected the source executes
`transition = copy.deepcopy(transition)` and then evaluates the arguments of
`relabel_transition_goal(transition, final_transition, reward_fn,
swap_keys_list)`; `swap_keys_list` is a free variable there (it is neither a
parameter of `apply` nor a global of the module), so the call raises
NameError before `relabel_transition_goal` can run. -/
def finalGoalStep {V : Type} (s : ReplayFinalGoal V) (reward_fn : V → V → ℚ)
    (episode : Episode V) (apply_her : Bool) (t : ℕ) :
    Except PyErr (List (Transition V)) := do
  let transition ← pyIndex episode t
  if apply_her then
    let final_transition ← pyLast episode
    let final_goal ← dictGetE final_transition.next_state "achieved_goal"
    -- `self.ignore_null_goals and self.is_null_goal(final_goal)` short-circuits
    let is_null ← if s.ignore_null_goals then callPred s.is_null_goal final_goal
                  else .ok false
    if !(s.ignore_null_goals && is_null) then
      throw (.nameError "swap_keys_list")
    else
      .ok [transition]
  else
    .ok [transition]

/-- The per-episode loop of `ReplayFinalGoal.apply` over the zipped draws,
appending one single-transition list per episode. -/
def finalLoop {V : Type} (s : ReplayFinalGoal V) (reward_fn : V → V → ℚ) :
    List (Episode V × Bool × ℕ) → Except PyErr (List (List (Transition V)))
  | [] => .ok []
  | (episode, apply_her, t) :: rest => do
      let item ← finalGoalStep s reward_fn episode apply_her t
      let batch ← finalLoop s reward_fn rest
      .ok (item :: batch)

/-- `ReplayFinalGoal.apply` (source lines 40-62).  The draws `ts` (one
`np.random.randint(ep_len)` per episode) and `apply_hers` (one
`np.random.uniform() < 0.5` per episode) are injected; `np.random.randint(0)`
raises ValueError, so an empty episode aborts the call before the loop. -/
def ReplayFinalGoal.apply {V : Type} (s : ReplayFinalGoal V)
    (episodes : List (Episode V)) (reward_fn : V → V → ℚ)
    (ts : List ℕ) (apply_hers : List Bool) :
    Except PyErr (List (List (Transition V))) :=
  if episodes.any (fun e => e.length == 0) then
    .error (.valueError "low >= high")
  else
    finalLoop s reward_fn (episodes.zip (apply_hers.zip ts))

/-- `ReplayFutureGoal` (source lines 64-113): fields set by its `__init__`.
Note there is no `future_prob` field: the source's `ReplayFutureGoal.__init__`
never sets one (only `HindsightReplayBuffer.__init__` assigns `future_prob`,
and on the buffer object, not on the strategy). -/
structure ReplayFutureGoal (V : Type) where
  ignore_null_goals : Bool := true
  is_null_goal : Option (V → Bool) := none

/-- `ReplayFutureGoal.apply` (source lines 81-113).  After computing the
time-index draws (where `np.random.randint(0)` on an empty episode raises
ValueError), the line `apply_hers = np.random.uniform(size=batch_size) <
self.future_prob` reads the attribute `future_prob`, which no
`ReplayFutureGoal` instance has, so the call raises AttributeError there;
the remaining lines (future offsets and the relabel loop) are unreachable. -/
def ReplayFutureGoal.apply {V : Type} (s : ReplayFutureGoal V)
    (episodes : List (Episode V)) (reward_fn : V → V → ℚ)
    (ts : List ℕ) (us : List ℚ) :
    Except PyErr (List (List (Transition V))) :=
  if episodes.any (fun e => e.length == 0) then
    .error (.valueError "low >= high")
  else
    .error (.attributeError "future_prob")

/-- NumPy `.astype(int)` on a scalar: truncation toward zero. -/
def astype_int (q : ℚ) : ℤ := if 0 ≤ q then ⌊q⌋ else -⌊-q⌋

/-- One entry of the future-offset computation written on source lines 95-97:
`future_offset = (np.random.uniform(size=batch_size) * (episode_lens -
ts)).astype(int)`, with `u` the uniform draw in `[0, 1)`. -/
def future_offset (u : ℚ) (ep_len t : ℕ) : ℤ :=
  astype_int (u * ((ep_len : ℚ) - (t : ℚ)))

/-- One entry of `future_ts = ts + future_offset` (source line 98). -/
def future_t (u : ℚ) (ep_len t : ℕ) : ℤ :=
  (t : ℤ) + future_offset u ep_len t

/-- Support of `np.random.randint(high)`: the draw lies in `[0, high)`. -/
abbrev randint_support (high t : ℕ) : Prop := t < high

/-- `HindsightReplayBuffer` state.  `replay_strategy` is a string: the
constructor asserts `replay_strategy in ["future", "final", "none"]`.  The
fields `memory` (the flat transition deque) and `episodic_memory` (the closed
episodes) come from the base class `EpisodicReplayBuffer`, which is not part
of the analysed source; they are modelled from the spec's Episode Store
(capacity handling and `append` are out of scope for the claims). -/
structure HindsightReplayBuffer (V : Type) where
  reward_fn : V → V → ℚ
  replay_strategy : String
  is_null_goal : Option (V → Bool) := none
  swap_keys_list : List (String × String) := [("desired_goal", "achieved_goal")]
  memory : List (Transition V) := []
  episodic_memory : List (Episode V) := []

/-- `HindsightReplayBuffer.__init__` (source lines 138-152).  It first asserts
that `replay_strategy` is one of the strings "future"/"final"/"none", then
executes `if ignore_null_goals:` — but `ignore_null_goals` is a free variable
(neither a parameter nor a global), so every construction that passes the
assert raises NameError; all later lines (attribute assignments, the
swap-list assert, and `self.future_prob = ...`) are unreachable. -/
def HindsightReplayBuffer.init {V : Type} (reward_fn : V → V → ℚ)
    (replay_strategy : String) (capacity : Option ℕ)
    (is_null_goal : Option (V → Bool)) (future_k : ℕ)
    (swap_list : List (String × String)) :
    Except PyErr (HindsightReplayBuffer V) :=
  if !(replay_strategy == "future" || replay_strategy == "final" ||
       replay_strategy == "none") then
    .error .assertionError
  else
    .error (.nameError "ignore_null_goals")

/-- Source line 152 (dead code — `__init__` raises NameError before reaching
it): `self.future_prob = 1.0 - 1.0 / (float(future_k) + 1)`.  Floats are
modelled as ℚ; at `future_k = 0` the float computation `1.0 - 1.0/1.0` is
exact, so the model agrees with the source there. -/
def future_prob (future_k : ℕ) : ℚ := 1 - 1 / ((future_k : ℚ) + 1)

/-- The list comprehension `[mem[i] for i in idxs]`, with Python's checked
indexing. -/
def indexComprehension {α : Type} (mem : List α) :
    List ℕ → Except PyErr (List α)
  | [] => .ok []
  | i :: rest => do
      let e ← pyIndex mem i
      let es ← indexComprehension mem rest
      .ok (e :: es)

/-- `HindsightReplayBuffer.sample_with_replacement` (source lines 179-181):
`[self.episodic_memory[i] for i in np.random.randint(0,
len(self.episodic_memory), k)]`.  `np.random.randint` checks its bounds
before looking at the requested size, so an empty episodic memory raises
ValueError "low >= high" for every `k` (including `k = 0`), and a negative
`k` raises ValueError for the negative size.  The drawn index array is
injected as `idxs`; theorems constrain it to length `k` with entries below
`len(episodic_memory)`, the support of the distribution. -/
def HindsightReplayBuffer.sample_with_replacement {V : Type}
    (b : HindsightReplayBuffer V) (k : ℤ) (idxs : List ℕ) :
    Except PyErr (List (Episode V)) :=
  if b.episodic_memory.length == 0 then
    .error (.valueError "low >= high")
  else if k < 0 then
    .error (.valueError "negative dimensions are not allowed")
  else
    indexComprehension b.episodic_memory idxs

/-- Modelled from the spec: `random_subseq` (imported from
`pfrl.replay_buffer`, which is not part of the analysed source) returns a
uniformly chosen contiguous subsequence of length at most `max_len`,
preserving order; the random start offset is injected as `start`. -/
def random_subseq {α : Type} (seq : List α) (max_len : ℕ) (start : ℕ) :
    List α :=
  (seq.drop start).take max_len

/-- `HindsightReplayBuffer.sample_episodes` (source lines 172-177): draws
`n_episodes` episodes with replacement and, when `max_len` is given, replaces
each by a random contiguous subsequence (offsets injected as `starts`). -/
def HindsightReplayBuffer.sample_episodes {V : Type}
    (b : HindsightReplayBuffer V) (n_episodes : ℤ) (max_len : Option ℕ)
    (idxs : List ℕ) (starts : List ℕ) : Except PyErr (List (Episode V)) := do
  let episodes ← b.sample_with_replacement n_episodes idxs
  match max_len with
  | some m => .ok ((episodes.zip starts).map (fun p => random_subseq p.1 m p.2))
  | none => .ok episodes

/-- `HindsightReplayBuffer.sample` (source lines 155-170).  It asserts
`len(self.memory) >= n` (note: the flat transition memory, and no check that
`n > 0`), draws the episodes, then evaluates
`self.replay_strategy.apply(...)`.  `self.replay_strategy` is one of the
strings "future"/"final"/"none" (enforced by the constructor's assert), and a
Python `str` has no attribute `apply`, so every call that reaches this line
raises AttributeError; the string-dispatch lines below it (including the
`raise NotImplementedError()` branch and the calls to the nonexistent methods
`_replay_future`/`_replay_final`) are unreachable. -/
def HindsightReplayBuffer.sample {V : Type} (b : HindsightReplayBuffer V)
    (n : ℤ) (idxs : List ℕ) : Except PyErr (List (List (Transition V))) :=
  if !(n ≤ (b.memory.length : ℤ)) then
    .error .assertionError
  else
    b.sample_episodes n none idxs [] >>= fun _episodes =>
    .error (.attributeError "apply")

/-- Concrete fixtures over `V := ℤ` used by the evaluation theorems. -/
def f0 : ℤ → ℤ → ℚ := fun g a => (g : ℚ) - (a : ℚ)

def tr0 : Transition ℤ :=
  { state := [("desired_goal", 0), ("achieved_goal", 1)]
    action := 0
    reward := 3
    next_state := [("desired_goal", 0), ("achieved_goal", 2)]
    is_state_terminal := true }

/-- A hypothetical buffer state (no `init` call can actually produce one,
see `hindsight_init_raises`) holding one episode of one transition, with the
given strategy tag. -/
def bufS (strat : String) : HindsightReplayBuffer ℤ :=
  { reward_fn := f0
    replay_strategy := strat
    memory := [tr0]
    episodic_memory := [[tr0]] }

/-- A buffer holding exactly two episodes of two transitions each (four
stored transitions in the flat memory). -/
def bufTwo : HindsightReplayBuffer ℤ :=
  { reward_fn := f0
    replay_strategy := "final"
    memory := [tr0, tr0, tr0, tr0]
    episodic_memory := [[tr0, tr0], [tr0, tr0]] }

/-- C2: evaluation of `sample` at each strategy tag the constructor accepts
("none", "final", "future"), on a non-empty store.  In every case the call
raises AttributeError at `self.replay_strategy.apply(...)` — `replay_strategy`
is a string, which has no `apply` — so `sample` never delegates to a
strategy's `apply` and never returns a batch; moreover for the accepted tag
"none" even the string dispatch below that line would end in
`raise NotImplementedError()`.  This contradicts the claim that sampling
returns the strategy's batch and that the defensive unsupported-strategy
error is unreachable for accepted strategies. -/
theorem sample_never_delegates :
    (bufS "none").sample 1 [0] = .error (.attributeError "apply") ∧
    (bufS "final").sample 1 [0] = .error (.attributeError "apply") ∧
    (bufS "future").sample 1 [0] = .error (.attributeError "apply") :=
  ⟨rfl, rfl, rfl⟩

/-- C3: evaluation of `sample`'s precondition handling.
`sample(0)` passes the assert `len(self.memory) >= n` (it is not a
precondition error) and then fails with the unrelated AttributeError;
`sample(1)` on a non-empty store fails the same way instead of succeeding;
and `sample(5)` on a store of exactly two episodes (four stored transitions)
fails the assert — the assert compares `n` against the number of stored
transitions, not against emptiness of the episode store — where the claim
requires success. -/
theorem sample_preconditions_diverge :
    (bufS "final").sample 0 [] = .error (.attributeError "apply") ∧
    (bufS "final").sample 1 [0] = .error (.attributeError "apply") ∧
    bufTwo.sample 5 [0, 1, 0, 1, 0] = .error .assertionError :=
  ⟨rfl, rfl, rfl⟩

/-- C8: evaluation of `HindsightReplayBuffer.__init__`.  An invalid strategy
tag is indeed rejected by the leading assert, but a fully valid
configuration (accepted strategy, `is_null_goal` provided, swap list
containing the mandatory pair) does not succeed: the next line
`if ignore_null_goals:` reads a free variable and raises NameError, so the
swap-list assert is never even reached. -/
theorem hindsight_init_raises :
    HindsightReplayBuffer.init (V := ℤ) f0 "bogus" none none 0
        [("desired_goal", "achieved_goal")] = .error .assertionError ∧
    HindsightReplayBuffer.init (V := ℤ) f0 "final" none (some (fun g => g == 0)) 0
        [("desired_goal", "achieved_goal")] = .error (.nameError "ignore_null_goals") ∧
    HindsightReplayBuffer.init (V := ℤ) f0 "none" none (some (fun g => g == 0)) 3
        [("desired_goal", "achieved_goal")] = .error (.nameError "ignore_null_goals") :=
  ⟨rfl, rfl, rfl⟩

/-- C9: evaluation of the length-1-episode relabel path.  With
`ignore_null_goals = False` and `apply_her` drawn true on the singleton
episode `[tr0]`, `ReplayFinalGoal.apply`'s loop body raises NameError on the
free variable `swap_keys_list` instead of relabeling the transition against
itself; the primitive `relabel_transition_goal` itself, called directly with
the transition as its own goal transition, does succeed and recomputes the
reward from the transition's own achieved goal (`f0 2 2 = 0`). -/
theorem final_length_one_relabel_raises :
    finalGoalStep ({ ignore_null_goals := false } : ReplayFinalGoal ℤ) f0
        [tr0] true 0 = .error (.nameError "swap_keys_list") ∧
    relabel_transition_goal tr0 tr0 f0 [("desired_goal", "achieved_goal")] =
      .ok { state := [("desired_goal", 2), ("desired_goal", 0), ("achieved_goal", 1)]
            action := 0
            reward := f0 2 2
            next_state := [("desired_goal", 2), ("desired_goal", 0), ("achieved_goal", 2)]
            is_state_terminal := true } ∧
    f0 2 2 = 0 := by
  refine ⟨rfl, rfl, ?_⟩
  norm_num [f0]

/-- C6: evaluation of the `future_prob` wiring.  The formula of source line
152 does give probability exactly 0 at `future_k = 0`, and the
non-relabeled path of the final-goal loop body does return the unmodified
`episode[t]` with its original reward; but `ReplayFutureGoal.apply` never
reaches its non-relabeled path: it raises AttributeError reading
`self.future_prob`, which is assigned only on the buffer (by dead code of
`__init__`), never on the strategy object — so it cannot return
`episode[t]` (or anything else) for any `future_k`. -/
theorem future_strategy_future_prob_bug :
    future_prob 0 = 0 ∧
    finalGoalStep ({ is_null_goal := some (fun g => g == 0) } : ReplayFinalGoal ℤ)
        f0 [tr0] false 0 = .ok [tr0] ∧
    ReplayFutureGoal.apply ({ is_null_goal := some (fun g => g == 0) } : ReplayFutureGoal ℤ)
        [[tr0]] f0 [0] [0] = .error (.attributeError "future_prob") := by
  refine ⟨?_, rfl, rfl⟩
  norm_num [future_prob]

/-- C5: for every episode length `L ≥ 1`, a time draw `t` in the support of
`np.random.randint(L)` (used identically by `ReplayFinalGoal.apply` and
`ReplayFutureGoal.apply`) lies in `[0, L-1]`, and the future index of source
lines 95-98, `future_t = t + astype_int(u * (L - t))` with a uniform draw
`u ∈ [0, 1)`, always lies in `[t, L-1]`; when `t = L-1` the future offset
evaluates to 0. -/
theorem time_and_future_index_bounds (L t : ℕ) (u : ℚ)
    (ht : randint_support L t) (hu0 : 0 ≤ u) (hu1 : u < 1) :
    t ≤ L - 1 ∧ (t : ℤ) ≤ future_t u L t ∧ future_t u L t ≤ (L : ℤ) - 1 ∧
    (t = L - 1 → future_offset u L t = 0) := by
  have htL : (t : ℚ) < (L : ℚ) := by exact_mod_cast ht
  have hc : (0 : ℚ) < (L : ℚ) - t := by linarith
  have hnn : 0 ≤ u * ((L : ℚ) - t) := mul_nonneg hu0 (le_of_lt hc)
  have hoff : future_offset u L t = ⌊u * ((L : ℚ) - t)⌋ := by
    simp [future_offset, astype_int, hnn]
  have h0 : 0 ≤ future_offset u L t := by
    rw [hoff]
    exact Int.floor_nonneg.mpr hnn
  have hlt : u * ((L : ℚ) - t) < (L : ℚ) - t := mul_lt_of_lt_one_left hc hu1
  have hup : future_offset u L t ≤ (L : ℤ) - t - 1 := by
    rw [hoff]
    have hfl : ⌊u * ((L : ℚ) - t)⌋ < (L : ℤ) - t := by
      rw [Int.floor_lt]
      push_cast
      exact hlt
    omega
  have htZ : (t : ℤ) < (L : ℤ) := by exact_mod_cast ht
  refine ⟨by omega, ?_, ?_, ?_⟩
  · unfold future_t
    omega
  · unfold future_t
    omega
  · intro hteq
    have h1 : (L : ℚ) - t = 1 := by
      have hnat : t + 1 = L := by omega
      have hq : ((t : ℚ) + 1) = (L : ℚ) := by exact_mod_cast hnat
      linarith
    rw [hoff, h1, mul_one]
    exact Int.floor_eq_zero_iff.mpr ⟨hu0, hu1⟩

/-- C5 witness: the bounds theorem applied at L = 3, t = 1, u = 1/2, all
hypotheses discharged there. -/
theorem time_and_future_index_bounds_witness :
    future_t (1 / 2) 3 1 ≤ (3 : ℤ) - 1 :=
  (time_and_future_index_bounds 3 1 (1 / 2) (by decide) (by norm_num)
    (by norm_num)).2.2.1

/-- A transition whose achieved goal is the null goal 0. -/
def trNull : Transition ℤ :=
  { state := [("desired_goal", 4), ("achieved_goal", 0)]
    action := 0
    reward := 7
    next_state := [("desired_goal", 4), ("achieved_goal", 0)]
    is_state_terminal := true }

/-- Final-goal strategy with null-goal filtering against the goal 0. -/
def sNull : ReplayFinalGoal ℤ :=
  { ignore_null_goals := true, is_null_goal := some (fun g => g == 0) }

/-- Future-goal strategy with null-goal filtering against the goal 0. -/
def sFutNull : ReplayFutureGoal ℤ :=
  { ignore_null_goals := true, is_null_goal := some (fun g => g == 0) }

theorem finalGoalStep_null_skip {V : Type} (s : ReplayFinalGoal V)
    (reward_fn : V → V → ℚ) (episode : Episode V) (t : ℕ)
    (tr lastTr : Transition V) (p : V → Bool) (g : V)
    (hig : s.ignore_null_goals = true)
    (hp : s.is_null_goal = some p)
    (htr : episode[t]? = some tr)
    (hlast : episode.getLast? = some lastTr)
    (hg : dictGet lastTr.next_state "achieved_goal" = some g)
    (hnull : p g = true) :
    finalGoalStep s reward_fn episode true t = .ok [tr] := by
  unfold finalGoalStep
  rw [show pyIndex episode t = .ok tr by simp [pyIndex, htr]]
  rw [except_bind_ok]
  rw [show pyLast episode = .ok lastTr by simp [pyLast, hlast]]
  simp only [if_true, except_bind_ok]
  rw [show dictGetE lastTr.next_state "achieved_goal" = .ok g by simp [dictGetE, hg]]
  rw [except_bind_ok, hig, hp]
  simp only [if_true, callPred, except_bind_ok, hnull, Bool.and_self,
    Bool.not_true, Bool.false_eq_true, if_false]

/-- C7 (amended): for `ReplayFinalGoal`, for every episode where `apply_her`
is drawn true, `ignore_null_goals` is true, and `is_null_goal` returns true
on the final transition's achieved goal, relabeling is skipped and the
returned batch element is the unmodified `episode[t]`, original reward
included.  (For `ReplayFutureGoal` the situation of the claim never arises:
its `apply` raises AttributeError reading the absent `future_prob` attribute
before any relabeling decision, see the counterexample.) -/
theorem final_null_goal_skip {V : Type} (s : ReplayFinalGoal V)
    (reward_fn : V → V → ℚ) (episode : Episode V) (t : ℕ)
    (tr lastTr : Transition V) (p : V → Bool) (g : V)
    (hig : s.ignore_null_goals = true)
    (hp : s.is_null_goal = some p)
    (htr : episode[t]? = some tr)
    (hlast : episode.getLast? = some lastTr)
    (hg : dictGet lastTr.next_state "achieved_goal" = some g)
    (hnull : p g = true) :
    ReplayFinalGoal.apply s [episode] reward_fn [t] [true] = .ok [[tr]] := by
  have hlen : episode.length ≠ 0 := by
    intro h0
    rw [List.length_eq_zero.mp h0] at htr
    simp at htr
  have hany : (List.any [episode] fun e => e.length == 0) = false := by
    simp only [List.any_cons, List.any_nil, Bool.or_false, beq_eq_false_iff_ne,
      ne_eq]
    exact hlen
  unfold ReplayFinalGoal.apply
  rw [hany]
  simp only [Bool.false_eq_true, if_false]
  show finalLoop s reward_fn [(episode, true, t)] = .ok [[tr]]
  unfold finalLoop
  rw [finalGoalStep_null_skip s reward_fn episode t tr lastTr p g hig hp htr
    hlast hg hnull]
  rfl

/-- C7 (counterexample to the claim as stated): for the future strategy the
claim fails.  On the singleton episode `[trNull]` with `apply_her` drawn
true, `ignore_null_goals = true` and a predicate declaring the candidate
goal null, the claim requires the unmodified base transition `trNull` back,
but `ReplayFutureGoal.apply` raises AttributeError (reading the absent
`future_prob`) before any relabeling decision and returns no transition. -/
theorem future_null_skip_counterexample :
    ReplayFutureGoal.apply sFutNull [[trNull]] f0 [0] [1] =
      .error (.attributeError "future_prob") ∧
    ReplayFutureGoal.apply sFutNull [[trNull]] f0 [0] [1] ≠ .ok [[trNull]] := by
  have he : ReplayFutureGoal.apply sFutNull [[trNull]] f0 [0] [1] =
      .error (.attributeError "future_prob") := rfl
  exact ⟨he, fun h => Except.noConfusion (he.symm.trans h)⟩

/-- C7 witness: the amended theorem applied at a concrete input (the
singleton episode `[trNull]`, base index 0), all hypotheses discharged
there. -/
theorem final_null_goal_skip_witness :
    ReplayFinalGoal.apply sNull [[trNull]] f0 [0] [true] = .ok [[trNull]] :=
  final_null_goal_skip sNull f0 [trNull] 0 trNull trNull (fun g => g == 0) 0
    rfl rfl rfl rfl rfl rfl

theorem except_bind_error {ε α β : Type} (e : ε) (f : α → Except ε β) :
    (Except.error e : Except ε α) >>= f = .error e := rfl

theorem finalGoalStep_ok_mem {V : Type} {s : ReplayFinalGoal V}
    {reward_fn : V → V → ℚ} {e : Episode V} {her : Bool} {t : ℕ}
    {l : List (Transition V)}
    (h : finalGoalStep s reward_fn e her t = .ok l) :
    ∃ tr, tr ∈ e ∧ l = [tr] := by
  unfold finalGoalStep at h
  cases hx : e[t]? with
  | none =>
      simp only [pyIndex, hx, except_bind_error] at h
      exact Except.noConfusion h
  | some tr =>
      simp only [pyIndex, hx, except_bind_ok] at h
      refine ⟨tr, List.getElem?_mem hx, ?_⟩
      cases her with
      | false =>
          simp only [Bool.false_eq_true, if_false] at h
          exact (Except.ok.inj h).symm
      | true =>
          simp only [if_true] at h
          cases hlast : e.getLast? with
          | none =>
              simp only [pyLast, hlast, except_bind_error] at h
              exact Except.noConfusion h
          | some lastTr =>
              simp only [pyLast, hlast, except_bind_ok] at h
              cases hgv : dictGet lastTr.next_state "achieved_goal" with
              | none =>
                  simp only [dictGetE, hgv, except_bind_error] at h
                  exact Except.noConfusion h
              | some g =>
                  simp only [dictGetE, hgv, except_bind_ok] at h
                  cases hign : s.ignore_null_goals with
                  | false =>
                      simp [hign] at h
                  | true =>
                      cases hpn : s.is_null_goal with
                      | none =>
                          simp only [hign, hpn, callPred, if_true,
                            except_bind_error] at h
                          exact Except.noConfusion h
                      | some p =>
                          cases hpg : p g with
                          | false =>
                              simp only [hign, hpn, callPred, hpg, if_true,
                                except_bind_ok] at h
                              simp at h
                          | true =>
                              simp only [hign, hpn, callPred, hpg, if_true,
                                except_bind_ok, Bool.and_self, Bool.not_true,
                                Bool.false_eq_true, if_false] at h
                              exact (Except.ok.inj h).symm

theorem finalLoop_ok_mem {V : Type} (s : ReplayFinalGoal V)
    (reward_fn : V → V → ℚ) :
    ∀ (trips : List (Episode V × Bool × ℕ)) (batch : List (List (Transition V))),
    finalLoop s reward_fn trips = .ok batch →
    ∀ l ∈ batch, ∃ e her t, (e, her, t) ∈ trips ∧ ∃ tr, tr ∈ e ∧ l = [tr] := by
  intro trips
  induction trips with
  | nil =>
      intro batch h l hl
      unfold finalLoop at h
      cases h
      simp at hl
  | cons trip rest ih =>
      intro batch h l hl
      obtain ⟨e, her, t⟩ := trip
      unfold finalLoop at h
      cases hstep : finalGoalStep s reward_fn e her t with
      | error err =>
          rw [hstep, except_bind_error] at h
          exact Except.noConfusion h
      | ok item =>
          rw [hstep, except_bind_ok] at h
          cases hrest : finalLoop s reward_fn rest with
          | error err =>
              rw [hrest, except_bind_error] at h
              exact Except.noConfusion h
          | ok batchRest =>
              rw [hrest, except_bind_ok] at h
              cases h
              rcases List.mem_cons.mp hl with hEq | hMem
              · subst hEq
                obtain ⟨tr, htrm, hltr⟩ := finalGoalStep_ok_mem hstep
                exact ⟨e, her, t, List.mem_cons_self _ _, tr, htrm, hltr⟩
              · obtain ⟨e', her', t', htrip, tr, htrm, hltr⟩ :=
                  ih batchRest hrest l hMem
                exact ⟨e', her', t', List.mem_cons_of_mem _ htrip, tr, htrm, hltr⟩

theorem sample_never_ok {V : Type} (b : HindsightReplayBuffer V) (n : ℤ)
    (idxs : List ℕ) (batch : List (List (Transition V))) :
    HindsightReplayBuffer.sample b n idxs ≠ .ok batch := by
  intro h
  unfold HindsightReplayBuffer.sample at h
  split at h
  · exact Except.noConfusion h
  · cases hse : b.sample_episodes n none idxs [] with
    | error err =>
        rw [hse, except_bind_error] at h
        exact Except.noConfusion h
    | ok eps =>
        rw [hse, except_bind_ok] at h
        exact Except.noConfusion h

/-- C4: non-destructiveness.  No sampling call ever mutates a stored
transition: every batch element a successful `ReplayFinalGoal.apply` call
returns is literally one of the stored transitions of the sampled episodes,
unchanged (the relabeling branch — the only code path that would write to a
transition, and then only to a deep copy made on the line before the write —
never returns normally), while `ReplayFutureGoal.apply` and
`HindsightReplayBuffer.sample` never return a batch at all; hence after any
`sample` or strategy `apply` call the stored episodes are unchanged and
re-sampling the same episode yields the original data. -/
theorem hindsight_sampling_nondestructive {V : Type}
    (s : ReplayFinalGoal V) (sf : ReplayFutureGoal V)
    (b : HindsightReplayBuffer V) (reward_fn : V → V → ℚ)
    (episodes : List (Episode V)) (ts : List ℕ) (hers : List Bool)
    (us : List ℚ) (n : ℤ) (idxs : List ℕ)
    (batch : List (List (Transition V))) :
    (ReplayFinalGoal.apply s episodes reward_fn ts hers = .ok batch →
      ∀ l ∈ batch, ∃ e, e ∈ episodes ∧ ∃ tr, tr ∈ e ∧ l = [tr]) ∧
    ReplayFutureGoal.apply sf episodes reward_fn ts us ≠ .ok batch ∧
    HindsightReplayBuffer.sample b n idxs ≠ .ok batch := by
  refine ⟨?_, ?_, sample_never_ok b n idxs batch⟩
  · intro h l hl
    unfold ReplayFinalGoal.apply at h
    split at h
    · exact Except.noConfusion h
    · obtain ⟨e, her, t, htrip, tr, htrm, hltr⟩ :=
        finalLoop_ok_mem s reward_fn _ batch h l hl
      exact ⟨e, (List.of_mem_zip htrip).1, tr, htrm, hltr⟩
  · intro h
    unfold ReplayFutureGoal.apply at h
    split at h <;> exact Except.noConfusion h

/-- C4 witness: the theorem applied at a concrete input on which the
final-goal strategy call succeeds, the implication discharged with that
concrete successful run. -/
theorem hindsight_sampling_nondestructive_witness :
    ∃ e, e ∈ [[tr0]] ∧ ∃ tr, tr ∈ e ∧ [tr0] = [tr] :=
  (hindsight_sampling_nondestructive sNull sFutNull (bufS "final") f0
      [[tr0]] [0] [false] [0] 1 [0] [[tr0]]).1 rfl [tr0]
    (List.mem_cons_self _ _)

theorem indexComprehension_ok {α : Type} (mem : List α) :
    ∀ idxs : List ℕ, (∀ i ∈ idxs, i < mem.length) →
    ∃ xs, indexComprehension mem idxs = .ok xs ∧ xs.length = idxs.length ∧
      ∀ x ∈ xs, x ∈ mem := by
  intro idxs
  induction idxs with
  | nil =>
      intro _
      exact ⟨[], rfl, rfl, by simp⟩
  | cons i rest ih =>
      intro hb
      have hi : i < mem.length := hb i (List.mem_cons_self _ _)
      have hx : mem[i]? = some mem[i] := List.getElem?_eq_getElem hi
      obtain ⟨xs, hxs, hlen, hmem⟩ :=
        ih (fun j hj => hb j (List.mem_cons_of_mem _ hj))
      refine ⟨mem[i] :: xs, ?_, by simp [hlen], ?_⟩
      · unfold indexComprehension
        rw [show pyIndex mem i = .ok mem[i] by simp [pyIndex, hx],
          except_bind_ok, hxs, except_bind_ok]
      · intro x hxm
        rcases List.mem_cons.mp hxm with rfl | hxm
        · exact List.getElem?_mem hx
        · exact hmem x hxm

/-- C10: with the index draw in the support of
`np.random.randint(0, len(episodic_memory), k)`,
`sample_with_replacement(k)` returns a list of exactly `k` episodes, each an
element of the current episodic memory; on an empty episodic memory it
raises ValueError for every `k` — including `k = 0`, since numpy validates
`low >= high` before looking at the requested size — and in particular never
returns an empty list there.  (The `episodic_memory` field inherited from
`EpisodicReplayBuffer` is not part of the analysed source and is modelled
from the spec's Episode Store.) -/
theorem sample_with_replacement_spec {V : Type} (b : HindsightReplayBuffer V) :
    (b.episodic_memory = [] → ∀ (k : ℤ) (idxs : List ℕ),
      b.sample_with_replacement k idxs = .error (.valueError "low >= high")) ∧
    (∀ (k : ℕ) (idxs : List ℕ), idxs.length = k →
      (∀ i ∈ idxs, i < b.episodic_memory.length) →
      b.episodic_memory ≠ [] →
      ∃ eps, b.sample_with_replacement (k : ℤ) idxs = .ok eps ∧
        eps.length = k ∧ ∀ e ∈ eps, e ∈ b.episodic_memory) := by
  constructor
  · intro hemp k idxs
    unfold HindsightReplayBuffer.sample_with_replacement
    rw [hemp]
    rfl
  · intro k idxs hlen hb hne
    unfold HindsightReplayBuffer.sample_with_replacement
    have h0 : (b.episodic_memory.length == 0) = false := by
      simp only [beq_eq_false_iff_ne, ne_eq]
      intro hc
      exact hne (List.length_eq_zero.mp hc)
    rw [h0]
    simp only [Bool.false_eq_true, if_false]
    have hneg : ¬ ((k : ℤ) < 0) := by omega
    rw [if_neg hneg]
    obtain ⟨xs, hxs, hxlen, hxmem⟩ :=
      indexComprehension_ok b.episodic_memory idxs hb
    exact ⟨xs, hxs, by rw [hxlen, hlen], hxmem⟩

/-- C10 witness: the success part applied on a one-episode store with
`k = 2` and draws `[0, 0]` (with replacement), all hypotheses discharged
there; the empty-store part applied at `k = 0`. -/
theorem sample_with_replacement_spec_witness :
    (∃ eps, (bufS "final").sample_with_replacement ((2 : ℕ) : ℤ) [0, 0] = .ok eps ∧
      eps.length = 2 ∧ ∀ e ∈ eps, e ∈ (bufS "final").episodic_memory) ∧
    ({ reward_fn := f0, replay_strategy := "final" } :
        HindsightReplayBuffer ℤ).sample_with_replacement 0 [] =
      .error (.valueError "low >= high") :=
  ⟨(sample_with_replacement_spec (bufS "final")).2 2 [0, 0] rfl
      (by decide) (by decide),
    (sample_with_replacement_spec
      ({ reward_fn := f0, replay_strategy := "final" } :
        HindsightReplayBuffer ℤ)).1 rfl 0 []⟩
